import Mathlib

/-!
Verification of the SparkFrame generation request gateway
(`src/services/geminiService.ts`, server section).

The server keeps two in-memory usage windows (a per-day request window and a
per-minute image window), a content-addressable response cache keyed by a
SHA-1 digest of the JSON-serialized request surface, and a two-slot
concurrency limiter around the remote image call.  This file embeds those
definitions and proves or refutes the specified properties.
-/

namespace SparkFrame

/-! ## Quota tracker (lines 441-507 of the server source)

`LIMITS = \x7b imagesPerMinute: 20, requestsPerDay: 200 \x7d`, four module
variables `dailyWindowStart`, `requestsToday`, `minuteWindowStart`,
`imagesThisMinute`.  `Date.now()` is passed explicitly as `now : Nat`
(milliseconds); JS subtraction `now - start` is only compared against
positive durations, so truncated `Nat` subtraction agrees with it whenever
the comparison matters. -/

def imagesPerMinute : Nat := 20
def requestsPerDay : Nat := 200
def minuteMs : Nat := 60 * 1000
def dayMs : Nat := 24 * 60 * 60 * 1000

structure UsageState where
  dailyWindowStart : Nat
  requestsToday : Nat
  minuteWindowStart : Nat
  imagesThisMinute : Nat
deriving DecidableEq, Repr

/-- The module initialises all four variables with `Date.now()` and counts 0. -/
def initialUsage (now : Nat) : UsageState :=
  { dailyWindowStart := now, requestsToday := 0
    minuteWindowStart := now, imagesThisMinute := 0 }

/-- First half of `resetIfNeeded`: roll the daily window over when its
elapsed time reaches 24h. -/
def resetDaily (now : Nat) (s : UsageState) : UsageState :=
  if now - s.dailyWindowStart ≥ dayMs then
    { s with dailyWindowStart := now, requestsToday := 0 }
  else s

/-- Second half of `resetIfNeeded`: roll the minute window over when its
elapsed time reaches 60s. -/
def resetMinute (now : Nat) (s : UsageState) : UsageState :=
  if now - s.minuteWindowStart ≥ minuteMs then
    { s with minuteWindowStart := now, imagesThisMinute := 0 }
  else s

/-- `resetIfNeeded` (source lines 449-459): roll over any window whose
elapsed time reaches its duration, the daily window first. -/
def resetIfNeeded (now : Nat) (s : UsageState) : UsageState :=
  resetMinute now (resetDaily now s)

structure UsageSnapshot where
  requestsToday : Nat
  requestsPerDayLimit : Nat
  imagesThisMinute : Nat
  imagesPerMinuteLimit : Nat
  minuteResetInSeconds : Nat
  dailyResetInSeconds : Nat
deriving DecidableEq, Repr

/-- `Math.max(0, Math.ceil((duration - elapsed) / 1000))` for the
non-negative values that actually arise after a roll-over. -/
def secondsUntilReset (durationMs elapsed : Nat) : Nat :=
  max 0 ((durationMs - elapsed + 999) / 1000)

/-- `usageSnapshot` (source lines 461-474).  It calls `resetIfNeeded` first,
so it both returns a snapshot and (possibly) rolls the stored windows over;
the pair returns the snapshot together with the state left behind. -/
def usageSnapshot (now : Nat) (s : UsageState) : UsageSnapshot × UsageState :=
  let s1 := resetIfNeeded now s
  ({ requestsToday := s1.requestsToday
     requestsPerDayLimit := requestsPerDay
     imagesThisMinute := s1.imagesThisMinute
     imagesPerMinuteLimit := imagesPerMinute
     minuteResetInSeconds := secondsUntilReset minuteMs (now - s1.minuteWindowStart)
     dailyResetInSeconds := secondsUntilReset dayMs (now - s1.dailyWindowStart) },
   s1)

inductive ReqType where
  | image
  | text
deriving DecidableEq, Repr

/-- The 429 errors thrown by `trackUsage`, with the snapshot attached as
`err.meta`. -/
inductive QuotaErr where
  | dailyLimitExceeded (meta : UsageSnapshot)
  | minuteImageLimitExceeded (meta : UsageSnapshot)
deriving DecidableEq, Repr

/-- `trackUsage` (source lines 482-507): roll windows over, reject with a 429
carrying `usageSnapshot()` if a limit applicable to the request kind is
reached, otherwise increment the applicable counters.  The second component
is the state of the module variables after the call (the error path calls
`usageSnapshot()`, whose inner `resetIfNeeded` is a no-op at the same
instant). -/
def trackUsage (now : Nat) (ty : ReqType) (s : UsageState) :
    Option QuotaErr × UsageState :=
  let s1 := resetIfNeeded now s
  if s1.requestsToday ≥ requestsPerDay then
    (some (.dailyLimitExceeded (usageSnapshot now s1).fst), (usageSnapshot now s1).snd)
  else if ty = .image ∧ s1.imagesThisMinute ≥ imagesPerMinute then
    (some (.minuteImageLimitExceeded (usageSnapshot now s1).fst), (usageSnapshot now s1).snd)
  else
    match ty with
    | .image => (none, { s1 with imagesThisMinute := s1.imagesThisMinute + 1
                                 requestsToday := s1.requestsToday + 1 })
    | .text => (none, { s1 with requestsToday := s1.requestsToday + 1 })

/-! ## Content cache key (source lines 416-429, 566-567)

`stableHash(input) = crypto.createHash('sha1').update(input).digest('hex')`,
applied to `JSON.stringify(\x7b prompt, characters, styleImages \x7d)`.
Node hashes the UTF-8 bytes of the string and prints the digest as lowercase
hex.  SHA-1 is embedded below on `Nat` words reduced mod `2 ^ 32`. -/

def pow32 : Nat := 4294967296

def rotl (k x : Nat) : Nat := ((x <<< k) ||| (x >>> (32 - k))) % pow32

/-- UTF-8 encoding of one code point. -/
def utf8Bytes (c : Nat) : List Nat :=
  if c < 128 then [c]
  else if c < 2048 then [192 ||| (c >>> 6), 128 ||| (c &&& 63)]
  else if c < 65536 then
    [224 ||| (c >>> 12), 128 ||| ((c >>> 6) &&& 63), 128 ||| (c &&& 63)]
  else
    [240 ||| (c >>> 18), 128 ||| ((c >>> 12) &&& 63),
     128 ||| ((c >>> 6) &&& 63), 128 ||| (c &&& 63)]

def stringBytes (s : String) : List Nat :=
  (s.data.map Char.toNat).flatMap utf8Bytes

/-- The `k` lowest bytes of `n`, big-endian. -/
def natBytesBE : Nat → Nat → List Nat
  | 0, _ => []
  | k + 1, n => (n >>> (8 * k)) % 256 :: natBytesBE k n

/-- SHA-1 message padding: one `0x80` byte, zeros to 56 mod 64, then the
bit length as 8 big-endian bytes. -/
def sha1Pad (msg : List Nat) : List Nat :=
  let zeros := (119 - msg.length % 64) % 64
  msg ++ [128] ++ List.replicate zeros 0 ++ natBytesBE 8 (8 * msg.length)

def wordsOf : List Nat → List Nat
  | b0 :: b1 :: b2 :: b3 :: rest =>
    (((b0 <<< 8 ||| b1) <<< 8 ||| b2) <<< 8 ||| b3) :: wordsOf rest
  | _ => []

/-- Extend the 16 message words to 80 (fuel-indexed so that it reduces). -/
def sha1Extend : Nat → Array Nat → Array Nat
  | 0, w => w
  | fuel + 1, w =>
    let i := w.size
    let x := rotl 1 ((((w.getD (i - 3) 0).xor (w.getD (i - 8) 0)).xor
      (w.getD (i - 14) 0)).xor (w.getD (i - 16) 0))
    sha1Extend fuel (w.push x)

def sha1F (i b c d : Nat) : Nat :=
  if i < 20 then (b &&& c) ||| ((b.xor 4294967295) &&& d)
  else if i < 40 then (b.xor c).xor d
  else if i < 60 then (b &&& c) ||| (b &&& d) ||| (c &&& d)
  else (b.xor c).xor d

def sha1K (i : Nat) : Nat :=
  if i < 20 then 1518500249
  else if i < 40 then 1859775393
  else if i < 60 then 2400959708
  else 3395469782

structure H5 where
  h0 : Nat
  h1 : Nat
  h2 : Nat
  h3 : Nat
  h4 : Nat
deriving DecidableEq, Repr

def sha1Rounds (w : Array Nat) :
    Nat → Nat × Nat × Nat × Nat × Nat → Nat × Nat × Nat × Nat × Nat
  | 0, st => st
  | fuel + 1, (a, b, c, d, e) =>
    let i := 80 - (fuel + 1)
    let t := (rotl 5 a + sha1F i b c d + e + sha1K i + w.getD i 0) % pow32
    sha1Rounds w fuel (t, a, rotl 30 b, c, d)

def processChunk (h : H5) (chunk : List Nat) : H5 :=
  let w := sha1Extend 64 (Array.mk (wordsOf chunk))
  let (a, b, c, d, e) := sha1Rounds w 80 (h.h0, h.h1, h.h2, h.h3, h.h4)
  ⟨(h.h0 + a) % pow32, (h.h1 + b) % pow32, (h.h2 + c) % pow32,
   (h.h3 + d) % pow32, (h.h4 + e) % pow32⟩

def sha1Init : H5 := ⟨1732584193, 4023233417, 2562383102, 271733878, 3285377520⟩

/-- Consume the padded byte stream 64-byte block by 64-byte block. -/
def sha1Fold (h : H5) (cur : List Nat) : List Nat → H5
  | [] => h
  | b :: rest =>
    let cur2 := cur ++ [b]
    if cur2.length = 64 then sha1Fold (processChunk h cur2) [] rest
    else sha1Fold h cur2 rest

def hexDigit (n : Nat) : Char :=
  if n < 10 then Char.ofNat (48 + n) else Char.ofNat (87 + n)

def wordHex (x : Nat) : String :=
  String.mk ((List.range 8).map (fun i => hexDigit ((x >>> (4 * (7 - i))) &&& 15)))

def sha1Hex (s : String) : String :=
  let final := sha1Fold sha1Init [] (sha1Pad (stringBytes s))
  wordHex final.h0 ++ wordHex final.h1 ++ wordHex final.h2 ++
    wordHex final.h3 ++ wordHex final.h4

/-- `stableHash` (source line 416). -/
def stableHash (input : String) : String := sha1Hex input

/-! ## `JSON.stringify` over parsed request bodies

Request bodies arrive as parsed JSON; `JSON.stringify` re-serialises them
with object fields in their original insertion order (it performs no
canonicalisation). -/

inductive Json where
  | null
  | bool (b : Bool)
  | num (n : Int)
  | str (s : String)
  | arr (elems : List Json)
  | obj (fields : List (String × Json))

/-- `JSON.stringify` escaping for one character of a string value. -/
def escapeChar (c : Char) : String :=
  if c = '"' then "\\\""
  else if c = '\\' then "\\\\"
  else if c = '\x08' then "\\b"
  else if c = '\x09' then "\\t"
  else if c = '\x0a' then "\\n"
  else if c = '\x0c' then "\\f"
  else if c = '\x0d' then "\\r"
  else if c.toNat < 32 then
    "\\u00" ++ String.mk [hexDigit ((c.toNat >>> 4) &&& 15), hexDigit (c.toNat &&& 15)]
  else String.singleton c

def jsonQuote (s : String) : String :=
  "\"" ++ String.join (s.data.map escapeChar) ++ "\""

mutual

def jsonStringify : Json → String
  | .null => "null"
  | .bool true => "true"
  | .bool false => "false"
  | .num n => toString n
  | .str s => jsonQuote s
  | .arr xs => "[" ++ jsonStringifyList xs ++ "]"
  | .obj fs => "\x7b" ++ jsonStringifyFields fs ++ "\x7d"

def jsonStringifyList : List Json → String
  | [] => ""
  | [x] => jsonStringify x
  | x :: y :: rest => jsonStringify x ++ "," ++ jsonStringifyList (y :: rest)

def jsonStringifyFields : List (String × Json) → String
  | [] => ""
  | [(k, v)] => jsonQuote k ++ ":" ++ jsonStringify v
  | (k, v) :: f :: rest =>
    jsonQuote k ++ ":" ++ jsonStringify v ++ "," ++ jsonStringifyFields (f :: rest)

end

/-! ## Cache store and the `/api/generateImage` handler (source lines 416-429, 543-605)

The cache directory holds one file `<hash>.png` per key; it is modelled as
an association list from hash to the stored base64 payload. -/

def cacheLookup : List (String × String) → String → Option String
  | [], _ => none
  | (k, v) :: rest, key => if k = key then some v else cacheLookup rest key

/-- `tryReadCache` (source lines 417-424): on a hit the artifact is returned
with the hard-coded mime type `image/png` and the cache file URL. -/
def tryReadCache (cache : List (String × String)) (hash : String) :
    Option (String × String × String) :=
  match cacheLookup cache hash with
  | some b64 => some (b64, "image/png", "/generated/cache/" ++ hash ++ ".png")
  | none => none

/-- `writeCache` (source lines 425-429): store the base64 payload under
`<hash>.png` (a later write for the same key shadows the earlier one). -/
def writeCache (cache : List (String × String)) (hash b64 : String) :
    List (String × String) :=
  (hash, b64) :: cache

/-- A part of the remote model response; the handler scans for the first
`inlineData` part. -/
inductive RemotePart where
  | inline (data : String) (mimeType : String)
  | textPart (text : String)
deriving DecidableEq, Repr

def firstInline : List RemotePart → Option (String × String)
  | [] => none
  | .inline d m :: _ => some (d, m)
  | .textPart _ :: rest => firstInline rest

/-- The request body fields of `/api/generateImage` that feed the cache key:
`characters` (default `[]`) and `styleImages` (default `null`) are kept as
the parsed JSON values they arrive as, since `JSON.stringify` re-serialises
them with their original field order. -/
structure GenImageRequest where
  prompt : String
  characters : Json
  styleImages : Json

/-- `JSON.stringify(\x7b prompt, characters, styleImages \x7d)` (source
line 567): field order of the outer object is fixed by the object literal. -/
def genImageCacheInput (r : GenImageRequest) : Json :=
  .obj [("prompt", .str r.prompt), ("characters", r.characters),
        ("styleImages", r.styleImages)]

/-- The cache key of a `/api/generateImage` request. -/
def genImageCacheKey (r : GenImageRequest) : String :=
  stableHash (jsonStringify (genImageCacheInput r))

/-- Externally observable actions of one handler run, in order. -/
inductive Effect where
  | acquireSlot
  | remoteCall
  | releaseSlot
  | diskWrite (filename : String)
  | cacheWrite (filename : String)
deriving DecidableEq, Repr

structure ImageResponse where
  base64Image : String
  mimeType : String
  fileUrl : String
deriving DecidableEq, Repr

inductive GenResult where
  | ok (resp : ImageResponse) (cacheHit : Bool)
  | rateLimited (e : QuotaErr)
  | failed
deriving DecidableEq, Repr

structure GenOutcome where
  result : GenResult
  usage : UsageState
  cache : List (String × String)
  effects : List Effect
deriving DecidableEq, Repr

/-- The `/api/generateImage` handler (source lines 543-605): `trackUsage`
first, then the cache probe, and only on a miss the remote call inside
`limitConcurrency` followed by `saveImageToDisk` and `writeCache`.  `remote`
is the part list of the remote response (an empty or text-only list covers
both the no-image response and the thrown remote error, which produce the
same 500 result, state and effects). -/
def generateImageHandler (now : Nat) (req : GenImageRequest)
    (remote : List RemotePart) (s : UsageState)
    (cache : List (String × String)) : GenOutcome :=
  match trackUsage now .image s with
  | (some e, s1) => ⟨.rateLimited e, s1, cache, []⟩
  | (none, s1) =>
    let key := genImageCacheKey req
    match tryReadCache cache key with
    | some (b64, mt, url) => ⟨.ok ⟨b64, mt, url⟩ true, s1, cache, []⟩
    | none =>
      match firstInline remote with
      | some (data, mt) =>
        ⟨.ok ⟨data, mt, "/generated/img-" ++ toString now ++ ".png"⟩ false, s1,
          writeCache cache key data,
          [.acquireSlot, .remoteCall, .releaseSlot,
           .diskWrite ("img-" ++ toString now ++ ".png"),
           .cacheWrite (key ++ ".png")]⟩
      | none => ⟨.failed, s1, cache, [.acquireSlot, .remoteCall, .releaseSlot]⟩

/-! ## Concurrency limiter (source lines 405-414)

`limitConcurrency` polls until `inflight < MAX_CONCURRENCY`, increments
`inflight`, runs the wrapped function and decrements in `finally`.  A handler
task is modelled as the list of gate-relevant actions it still has to
perform; the remote call itself spans `beginRemote .. endRemote`.  One
scheduler step advances one task by one action; a task whose next action is
`acquire` only moves when the gate guard `inflight < MAX_CONCURRENCY`
currently holds. -/

def MAX_CONCURRENCY : Nat := 2

inductive GateAction where
  | acquire
  | beginRemote
  | endRemote
  | release
deriving DecidableEq, Repr

/-- The gate-relevant actions of the `/api/generateImage` remote section:
`limitConcurrency(() => ai.models.generateContent(...))` — acquire, call,
release (the release sits in `finally`, so it also runs when the call
throws). -/
def generateImageRemoteProgram : List GateAction :=
  [.acquire, .beginRemote, .endRemote, .release]

/-- The gate-relevant actions of the `/api/editImage` remote section (source
line 626): `await ai.models.generateContent(...)` is called directly, with
no `limitConcurrency` wrapper and hence no slot. -/
def editImageRemoteProgram : List GateAction :=
  [.beginRemote, .endRemote]

/-- A task currently holds a concurrency slot iff it has passed `acquire`
but not yet `release`. -/
def taskHolds (r : List GateAction) : Bool :=
  decide (GateAction.release ∈ r) && !decide (GateAction.acquire ∈ r)

/-- A task currently has a remote call in flight iff it has passed
`beginRemote` but not yet `endRemote`. -/
def taskInRemote (r : List GateAction) : Bool :=
  decide (GateAction.endRemote ∈ r) && !decide (GateAction.beginRemote ∈ r)

/-- The value of the module variable `inflight`: the number of tasks
currently between `acquire` and `release`. -/
def inflightCount (tasks : List (List GateAction)) : Nat :=
  tasks.countP taskHolds

/-- The number of remote calls currently in flight. -/
def remoteCount (tasks : List (List GateAction)) : Nat :=
  tasks.countP taskInRemote

/-- Advance one task by its next action; `acquire` moves only when the gate
guard holds. -/
def advanceTask (canAcquire : Bool) : List GateAction → List GateAction
  | [] => []
  | .acquire :: rest => if canAcquire then rest else .acquire :: rest
  | _ :: rest => rest

def stepAt (canAcquire : Bool) : List (List GateAction) → Nat → List (List GateAction)
  | [], _ => []
  | t :: ts, 0 => advanceTask canAcquire t :: ts
  | t :: ts, i + 1 => t :: stepAt canAcquire ts i

/-- One scheduler step: advance task `i`, evaluating the gate guard against
the current global `inflight`. -/
def gateStep (tasks : List (List GateAction)) (i : Nat) : List (List GateAction) :=
  stepAt (decide (inflightCount tasks < MAX_CONCURRENCY)) tasks i

/-- Run a schedule (a list of task indices) from an initial task pool. -/
def runSchedule (tasks : List (List GateAction)) (sched : List Nat) :
    List (List GateAction) :=
  sched.foldl gateStep tasks

/-! ## ResilientExecutor -/

/-- Modelled from the spec: the repository contains no ResilientExecutor —
no retry, backoff or timeout logic appears anywhere in the source, the
server calls `ai.models.generateContent` directly — so §4.4 is embedded
from the spec's words.  Outcome classification of one attempt. -/
inductive AttemptResult where
  | success
  | retryableFailure (classification : String)
  | fatalFailure (reason : String)
deriving DecidableEq, Repr

/-- Modelled from the spec: terminal outcome of the executor; exhausted
retries surface the last retryable failure. -/
inductive ExecOutcome where
  | success
  | terminalRetryable (classification : String)
  | fatal (reason : String)
deriving DecidableEq, Repr

/-- Modelled from the spec: §7's status-code classification table — 429 and
[500,599] are retryable, everything else fatal. -/
def statusRetryable (status : Nat) : Bool :=
  status == 429 || (500 ≤ status && status ≤ 599)

/-- Modelled from the spec: the wait before the attempt after `attempt`,
`min(10000, baseDelayMs * 2^attempt) + random(0,250)ms`; the sampled jitter
is passed in explicitly. -/
def backoffDelay (baseDelayMs attempt jitter : Nat) : Nat :=
  min 10000 (baseDelayMs * 2 ^ attempt) + jitter

/-- Modelled from the spec: the retry loop of
`execute(fn, timeoutMs, maxRetries, baseDelayMs)`.  `fn i` is the attempt
outcome of attempt `i` (a timeout counts as a retryable failure), `jitter i`
the jitter sampled after attempt `i`, `fuel` the number of attempts still
allowed.  Returns the terminal outcome and the total backoff wait. -/
def executeGo (fn : Nat → AttemptResult) (jitter : Nat → Nat)
    (baseDelayMs : Nat) (attempt : Nat) : Nat → ExecOutcome × Nat
  | 0 => (.terminalRetryable "no attempts", 0)
  | fuel + 1 =>
    match fn attempt with
    | .success => (.success, 0)
    | .fatalFailure r => (.fatal r, 0)
    | .retryableFailure c =>
      match fuel with
      | 0 => (.terminalRetryable c, 0)
      | f + 1 =>
        let d := backoffDelay baseDelayMs attempt (jitter attempt)
        let rest := executeGo fn jitter baseDelayMs (attempt + 1) (f + 1)
        (rest.fst, d + rest.snd)

/-- Modelled from the spec: `execute` runs up to `maxRetries` attempts
total, starting at attempt 0. -/
def execute (fn : Nat → AttemptResult) (jitter : Nat → Nat)
    (baseDelayMs maxRetries : Nat) : ExecOutcome × Nat :=
  executeGo fn jitter baseDelayMs 0 maxRetries

/-! ## Auxiliary definitions used only by the statements -/

/-- The `meta` snapshot attached to a 429 error. -/
def quotaErrMeta : QuotaErr → UsageSnapshot
  | .dailyLimitExceeded m => m
  | .minuteImageLimitExceeded m => m

/-- One operation touching the usage counters, with its `Date.now()`. -/
inductive UsageOp where
  | track (now : Nat) (ty : ReqType)
  | observe (now : Nat)
  | reset (now : Nat)
deriving DecidableEq, Repr

def applyOp (s : UsageState) : UsageOp → UsageState
  | .track now ty => (trackUsage now ty s).snd
  | .observe now => (usageSnapshot now s).snd
  | .reset now => resetIfNeeded now s

def runOps (s : UsageState) (ops : List UsageOp) : UsageState :=
  ops.foldl applyOp s

/-- Both counters stay at or below their configured limits. -/
def UsageInv (s : UsageState) : Prop :=
  s.requestsToday ≤ requestsPerDay ∧ s.imagesThisMinute ≤ imagesPerMinute

/-- A schedule that drives `n` wrapped tasks to completion: run task 0
through its four actions, then (shifting indices) each remaining task in
turn. -/
def completionSchedule : Nat → List Nat
  | 0 => []
  | n + 1 => 0 :: 0 :: 0 :: 0 :: (completionSchedule n).map Nat.succ

/-- Modelled from the spec: an attempt sequence that fails retryably twice
(HTTP 503, a retryable status) and then succeeds, used to instantiate the
executor scenario. -/
def attemptsFailTwice (i : Nat) : AttemptResult :=
  if i < 2 then .retryableFailure "http 503" else .success

/-- The spec's scenario request: the knight prompt with no characters
(default `[]`) and no style references (default `null`). -/
def reqKnight : GenImageRequest :=
  ⟨"A brave knight discovers a glowing sword in a misty forest at dusk.",
    .arr [], .null⟩

/-- A cache directory holding exactly the artifact for `reqKnight`. -/
def cacheWithKnight : List (String × String) :=
  [(genImageCacheKey reqKnight, "CACHEDPNG")]

/-- A one-character request whose character object lists `name` before
`profile`. -/
def reqCharNP : GenImageRequest :=
  ⟨"p", .arr [.obj [("name", .str "A"), ("profile", .str "P")]], .null⟩

/-- The semantically identical request with the character's fields in the
opposite order. -/
def reqCharPN : GenImageRequest :=
  ⟨"p", .arr [.obj [("profile", .str "P"), ("name", .str "A")]], .null⟩

/-! ## Theorems -/

theorem resetDaily_idem (now : Nat) (s : UsageState) :
    resetDaily now (resetDaily now s) = resetDaily now s := by
  unfold resetDaily
  split_ifs <;> simp_all [dayMs]

theorem resetMinute_idem (now : Nat) (s : UsageState) :
    resetMinute now (resetMinute now s) = resetMinute now s := by
  unfold resetMinute
  split_ifs <;> simp_all [minuteMs]

theorem resetDaily_resetMinute_comm (now : Nat) (s : UsageState) :
    resetDaily now (resetMinute now s) = resetMinute now (resetDaily now s) := by
  unfold resetDaily resetMinute
  split_ifs <;> simp_all

/-- Rolling over is idempotent at a fixed instant. -/
theorem resetIfNeeded_idem (now : Nat) (s : UsageState) :
    resetIfNeeded now (resetIfNeeded now s) = resetIfNeeded now s := by
  unfold resetIfNeeded
  rw [← resetDaily_resetMinute_comm, resetMinute_idem, resetDaily_resetMinute_comm,
    resetDaily_idem]

theorem resetIfNeeded_minute_expired (now : Nat) (s : UsageState)
    (hm : minuteMs ≤ now - s.minuteWindowStart) :
    (resetIfNeeded now s).imagesThisMinute = 0 ∧
      (resetIfNeeded now s).minuteWindowStart = now := by
  unfold resetIfNeeded resetMinute resetDaily
  split_ifs <;> simp_all

theorem resetIfNeeded_daily_expired (now : Nat) (s : UsageState)
    (hd : dayMs ≤ now - s.dailyWindowStart) :
    (resetIfNeeded now s).requestsToday = 0 ∧
      (resetIfNeeded now s).dailyWindowStart = now := by
  unfold resetIfNeeded resetMinute resetDaily
  split_ifs <;> simp_all

/-- C3: any window whose elapsed time meets or exceeds its duration is
rolled over (count 0, start `now`) before the limit comparison, so a
request arriving past window expiry with the window previously at its limit
is admitted against a count of 0.  First conjunct: expired minute window at
its image limit, image request; second: expired daily window at its request
limit, text request. -/
theorem c3_rollover_precedes_limit_check :
    (∀ now s, minuteMs ≤ now - s.minuteWindowStart →
      s.imagesThisMinute = imagesPerMinute →
      (resetIfNeeded now s).requestsToday < requestsPerDay →
      (trackUsage now .image s).fst = none ∧
        (trackUsage now .image s).snd.imagesThisMinute = 1 ∧
        (trackUsage now .image s).snd.minuteWindowStart = now) ∧
    (∀ now s, dayMs ≤ now - s.dailyWindowStart →
      s.requestsToday = requestsPerDay →
      (trackUsage now .text s).fst = none ∧
        (trackUsage now .text s).snd.requestsToday = 1 ∧
        (trackUsage now .text s).snd.dailyWindowStart = now) := by
  constructor
  · intro now s hm _ hday
    obtain ⟨hi, hws⟩ := resetIfNeeded_minute_expired now s hm
    have hreq : ¬ (resetIfNeeded now s).requestsToday ≥ requestsPerDay := by omega
    simp [trackUsage, hreq, hi, hws, imagesPerMinute]
  · intro now s hd _
    obtain ⟨hr, hws⟩ := resetIfNeeded_daily_expired now s hd
    have hreq : ¬ (resetIfNeeded now s).requestsToday ≥ requestsPerDay := by
      simp [hr, requestsPerDay]
    simp [trackUsage, hreq, hr, hws, requestsPerDay]

/-- Witness for C3: a minute window that expired 1ms ago while at its
20-image limit admits the next image request with a fresh count, and a daily
window that expired while at its 200-request limit admits the next text
request. -/
theorem c3_rollover_precedes_limit_check_witness :
    (trackUsage 60001 .image ⟨0, 0, 0, 20⟩).fst = none ∧
      (trackUsage 60001 .image ⟨0, 0, 0, 20⟩).snd.imagesThisMinute = 1 ∧
      (trackUsage 86400000 .text ⟨0, 200, 86400000, 0⟩).fst = none ∧
      (trackUsage 86400000 .text ⟨0, 200, 86400000, 0⟩).snd.requestsToday = 1 := by
  have h1 := c3_rollover_precedes_limit_check.1 60001 ⟨0, 0, 0, 20⟩
    (by decide) (by decide) (by decide)
  have h2 := c3_rollover_precedes_limit_check.2 86400000 ⟨0, 200, 86400000, 0⟩
    (by decide) (by decide)
  exact ⟨h1.1, h1.2.1, h2.1, h2.2.1⟩

/-- C4, counterexample: a rejected admission check can mutate a quota
counter.  At `now = 86400000` the daily window of
`⟨0, 5, 86399000, 20⟩` has expired, so `trackUsage` first rolls it over
(`requestsToday` 5 → 0) and then rejects on the still-current minute window
— the call is rejected, yet `requestsToday` changed. -/
theorem c4_counterexample :
    (trackUsage 86400000 .image ⟨0, 5, 86399000, 20⟩).fst.isSome = true ∧
      (trackUsage 86400000 .image ⟨0, 5, 86399000, 20⟩).snd.requestsToday ≠ 5 := by
  decide

/-- C4, amended: a rejected call mutates quota state only by the window
roll-over that precedes the check (never an increment): its final state is
exactly `resetIfNeeded now s`, and the error carries the same unincremented
snapshot a pure observer would compute at that instant, whose counters are
those of the rolled state; a minute-limit rejection reports a count at the
image limit (exactly at it whenever the counter invariant held before).
When admitted, check and increments happen in one atomic step of the model:
the daily counter (and for image requests the minute counter) of the rolled
state is incremented by 1. -/
theorem c4_rejection_frame_and_snapshot (now : Nat) (ty : ReqType) (s : UsageState) :
    (∀ e, (trackUsage now ty s).fst = some e →
      (trackUsage now ty s).snd = resetIfNeeded now s ∧
        quotaErrMeta e = (usageSnapshot now s).fst ∧
        (quotaErrMeta e).requestsToday = (resetIfNeeded now s).requestsToday ∧
        (quotaErrMeta e).imagesThisMinute = (resetIfNeeded now s).imagesThisMinute) ∧
    (∀ m, (trackUsage now ty s).fst = some (.minuteImageLimitExceeded m) →
      imagesPerMinute ≤ m.imagesThisMinute ∧
        (s.imagesThisMinute ≤ imagesPerMinute → m.imagesThisMinute = imagesPerMinute)) ∧
    ((trackUsage now ty s).fst = none →
      (trackUsage now ty s).snd.requestsToday = (resetIfNeeded now s).requestsToday + 1 ∧
        (ty = .image →
          (trackUsage now ty s).snd.imagesThisMinute =
            (resetIfNeeded now s).imagesThisMinute + 1) ∧
        (ty = .text →
          (trackUsage now ty s).snd.imagesThisMinute =
            (resetIfNeeded now s).imagesThisMinute)) := by
  have hsnap : usageSnapshot now (resetIfNeeded now s) = usageSnapshot now s := by
    simp [usageSnapshot, resetIfNeeded_idem]
  have hts : (usageSnapshot now (resetIfNeeded now s)).snd = resetIfNeeded now s := by
    simp [usageSnapshot, resetIfNeeded_idem]
  have hfr : (usageSnapshot now (resetIfNeeded now s)).fst.requestsToday =
      (resetIfNeeded now s).requestsToday := by
    simp [usageSnapshot, resetIfNeeded_idem]
  have hfi : (usageSnapshot now (resetIfNeeded now s)).fst.imagesThisMinute =
      (resetIfNeeded now s).imagesThisMinute := by
    simp [usageSnapshot, resetIfNeeded_idem]
  have hmin : (resetIfNeeded now s).imagesThisMinute ≤ s.imagesThisMinute := by
    unfold resetIfNeeded resetMinute resetDaily
    split_ifs <;> simp
  by_cases h1 : (resetIfNeeded now s).requestsToday ≥ requestsPerDay
  · have htrack : trackUsage now ty s =
        (some (.dailyLimitExceeded (usageSnapshot now (resetIfNeeded now s)).fst),
          (usageSnapshot now (resetIfNeeded now s)).snd) := by
      simp [trackUsage, h1]
    refine ⟨?_, ?_, ?_⟩
    · intro e he
      rw [htrack] at he ⊢
      cases he
      exact ⟨hts, by rw [← hsnap]; rfl, hfr, hfi⟩
    · intro m hm
      rw [htrack] at hm
      simp at hm
    · intro hn
      rw [htrack] at hn
      simp at hn
  · by_cases h2 : ty = .image ∧ (resetIfNeeded now s).imagesThisMinute ≥ imagesPerMinute
    · have htrack : trackUsage now ty s =
          (some (.minuteImageLimitExceeded (usageSnapshot now (resetIfNeeded now s)).fst),
            (usageSnapshot now (resetIfNeeded now s)).snd) := by
        simp [trackUsage, h1, h2]
      refine ⟨?_, ?_, ?_⟩
      · intro e he
        rw [htrack] at he ⊢
        cases he
        exact ⟨hts, by rw [← hsnap]; rfl, hfr, hfi⟩
      · intro m hm
        rw [htrack] at hm
        simp only [Option.some.injEq, QuotaErr.minuteImageLimitExceeded.injEq] at hm
        subst hm
        exact ⟨by omega, fun hinv => by omega⟩
      · intro hn
        rw [htrack] at hn
        simp at hn
    · cases ty with
      | image =>
        have himg : ¬ (resetIfNeeded now s).imagesThisMinute ≥ imagesPerMinute := by
          intro h
          exact h2 ⟨rfl, h⟩
        have htrack : trackUsage now .image s =
            (none, { resetIfNeeded now s with
              imagesThisMinute := (resetIfNeeded now s).imagesThisMinute + 1,
              requestsToday := (resetIfNeeded now s).requestsToday + 1 }) := by
          simp [trackUsage, h1, himg]
        refine ⟨?_, ?_, ?_⟩
        · intro e he
          rw [htrack] at he
          simp at he
        · intro m hm
          rw [htrack] at hm
          simp at hm
        · intro _
          rw [htrack]
          exact ⟨rfl, fun _ => rfl, by simp⟩
      | text =>
        have htrack : trackUsage now .text s =
            (none, { resetIfNeeded now s with
              requestsToday := (resetIfNeeded now s).requestsToday + 1 }) := by
          simp [trackUsage, h1]
        refine ⟨?_, ?_, ?_⟩
        · intro e he
          rw [htrack] at he
          simp at he
        · intro m hm
          rw [htrack] at hm
          simp at hm
        · intro _
          rw [htrack]
          exact ⟨rfl, by simp, fun _ => rfl⟩

/-- Witness for C4 amended: concrete rejected and admitted calls.  At
`now = 0` on a state already at the minute image limit the call is rejected
with the unincremented snapshot and unchanged state; on the initial state an
image call is admitted and both counters become 1. -/
theorem c4_rejection_frame_and_snapshot_witness :
    (trackUsage 0 .image ⟨0, 7, 0, 20⟩).snd = resetIfNeeded 0 ⟨0, 7, 0, 20⟩ ∧
      quotaErrMeta (QuotaErr.minuteImageLimitExceeded
          ⟨7, 200, 20, 20, 60, 86400⟩) = (usageSnapshot 0 ⟨0, 7, 0, 20⟩).fst ∧
      (trackUsage 5 .image (initialUsage 5)).snd.requestsToday =
        (resetIfNeeded 5 (initialUsage 5)).requestsToday + 1 := by
  have h1 := (c4_rejection_frame_and_snapshot 0 .image ⟨0, 7, 0, 20⟩).1
    (.minuteImageLimitExceeded ⟨7, 200, 20, 20, 60, 86400⟩) (by decide)
  have h2 := (c4_rejection_frame_and_snapshot 5 .image (initialUsage 5)).2.2 (by decide)
  exact ⟨h1.1, h1.2.1, h2.1⟩

/-- C7, counterexample: `usageSnapshot` is not side-effect-free.  It calls
`resetIfNeeded` first, so reading `/api/usage` at `now = 60000` on a state
whose minute window started at 0 rolls that window over and changes the
stored quota state. -/
theorem c7_counterexample :
    (usageSnapshot 60000 ⟨0, 5, 0, 3⟩).snd ≠ (⟨0, 5, 0, 3⟩ : UsageState) := by
  decide

/-- C7, amended: the only state effect of `usageSnapshot` is the
`resetIfNeeded` roll-over; whenever both windows are still current (elapsed
time strictly below duration) it leaves the quota state unchanged. -/
theorem c7_snapshot_effect_is_rollover (now : Nat) (s : UsageState) :
    (usageSnapshot now s).snd = resetIfNeeded now s ∧
      (now - s.dailyWindowStart < dayMs → now - s.minuteWindowStart < minuteMs →
        (usageSnapshot now s).snd = s) := by
  refine ⟨rfl, fun hd hm => ?_⟩
  simp only [usageSnapshot]
  unfold resetIfNeeded resetMinute resetDaily
  split_ifs <;> first | rfl | omega

/-- Witness for C7 amended: with both windows current nothing changes. -/
theorem c7_snapshot_effect_is_rollover_witness :
    (usageSnapshot 30000 ⟨0, 5, 0, 3⟩).snd = (⟨0, 5, 0, 3⟩ : UsageState) :=
  (c7_snapshot_effect_is_rollover 30000 ⟨0, 5, 0, 3⟩).2 (by decide) (by decide)

/-- C8: an admitted text request increments only the daily request counter
(the minute window's count and both window starts are exactly those of the
rolled state), an admitted image request increments both counters, and a
text request is never rejected on account of the per-minute image limit —
any rejection of a text request is a `dailyLimitExceeded` error. -/
theorem c8_kind_selects_counters (now : Nat) (s : UsageState) :
    ((trackUsage now .text s).fst = none →
      (trackUsage now .text s).snd.requestsToday =
          (resetIfNeeded now s).requestsToday + 1 ∧
        (trackUsage now .text s).snd.imagesThisMinute =
          (resetIfNeeded now s).imagesThisMinute ∧
        (trackUsage now .text s).snd.minuteWindowStart =
          (resetIfNeeded now s).minuteWindowStart ∧
        (trackUsage now .text s).snd.dailyWindowStart =
          (resetIfNeeded now s).dailyWindowStart) ∧
    ((trackUsage now .image s).fst = none →
      (trackUsage now .image s).snd.requestsToday =
          (resetIfNeeded now s).requestsToday + 1 ∧
        (trackUsage now .image s).snd.imagesThisMinute =
          (resetIfNeeded now s).imagesThisMinute + 1) ∧
    (∀ e, (trackUsage now .text s).fst = some e →
      ∃ m, e = .dailyLimitExceeded m) := by
  by_cases h1 : (resetIfNeeded now s).requestsToday ≥ requestsPerDay
  · have htrack : trackUsage now .text s =
        (some (.dailyLimitExceeded (usageSnapshot now (resetIfNeeded now s)).fst),
          (usageSnapshot now (resetIfNeeded now s)).snd) := by
      simp [trackUsage, h1]
    have htracki : trackUsage now .image s =
        (some (.dailyLimitExceeded (usageSnapshot now (resetIfNeeded now s)).fst),
          (usageSnapshot now (resetIfNeeded now s)).snd) := by
      simp [trackUsage, h1]
    refine ⟨fun hn => ?_, fun hn => ?_, fun e he => ?_⟩
    · rw [htrack] at hn
      simp at hn
    · rw [htracki] at hn
      simp at hn
    · rw [htrack] at he
      cases he
      exact ⟨_, rfl⟩
  · have htrack : trackUsage now .text s =
        (none, { resetIfNeeded now s with
          requestsToday := (resetIfNeeded now s).requestsToday + 1 }) := by
      simp [trackUsage, h1]
    refine ⟨fun _ => ?_, fun hn => ?_, fun e he => ?_⟩
    · rw [htrack]
      exact ⟨rfl, rfl, rfl, rfl⟩
    · by_cases h2 : (resetIfNeeded now s).imagesThisMinute ≥ imagesPerMinute
      · have htracki : trackUsage now .image s =
            (some (.minuteImageLimitExceeded
                (usageSnapshot now (resetIfNeeded now s)).fst),
              (usageSnapshot now (resetIfNeeded now s)).snd) := by
          simp [trackUsage, h1, h2]
        rw [htracki] at hn
        simp at hn
      · have htracki : trackUsage now .image s =
            (none, { resetIfNeeded now s with
              imagesThisMinute := (resetIfNeeded now s).imagesThisMinute + 1,
              requestsToday := (resetIfNeeded now s).requestsToday + 1 }) := by
          simp [trackUsage, h1, h2]
        rw [htracki]
        exact ⟨rfl, rfl⟩
    · rw [htrack] at he
      simp at he

/-- Witness for C8: at `now = 0` from a mid-window state, a text request
leaves the image counter at 3 while a fresh image request raises it to 4;
on a daily-exhausted state a text request is rejected with the daily error. -/
theorem c8_kind_selects_counters_witness :
    (trackUsage 0 .text ⟨0, 5, 0, 3⟩).snd.imagesThisMinute = 3 ∧
      (trackUsage 0 .image ⟨0, 5, 0, 3⟩).snd.imagesThisMinute = 4 ∧
      (∃ m, QuotaErr.dailyLimitExceeded ⟨200, 200, 3, 20, 60, 86400⟩ =
        QuotaErr.dailyLimitExceeded m) := by
  have h1 := (c8_kind_selects_counters 0 ⟨0, 5, 0, 3⟩).1 (by decide)
  have h2 := (c8_kind_selects_counters 0 ⟨0, 5, 0, 3⟩).2.1 (by decide)
  have h3 := (c8_kind_selects_counters 0 ⟨0, 200, 0, 3⟩).2.2
    (.dailyLimitExceeded ⟨200, 200, 3, 20, 60, 86400⟩) (by decide)
  exact ⟨by rw [h1.2.1]; decide, by rw [h2.2]; decide, h3⟩

theorem usageInv_resetIfNeeded (now : Nat) (s : UsageState) (h : UsageInv s) :
    UsageInv (resetIfNeeded now s) := by
  unfold UsageInv at *
  unfold resetIfNeeded resetMinute resetDaily
  split_ifs <;> simp_all

theorem usageInv_trackUsage (now : Nat) (ty : ReqType) (s : UsageState)
    (h : UsageInv s) : UsageInv (trackUsage now ty s).snd := by
  have hr := usageInv_resetIfNeeded now s h
  have hr2 := usageInv_resetIfNeeded now (resetIfNeeded now s) hr
  by_cases h1 : (resetIfNeeded now s).requestsToday ≥ requestsPerDay
  · have : (trackUsage now ty s).snd = (usageSnapshot now (resetIfNeeded now s)).snd := by
      simp [trackUsage, h1]
    rw [this]
    exact hr2
  · by_cases h2 : ty = .image ∧ (resetIfNeeded now s).imagesThisMinute ≥ imagesPerMinute
    · have : (trackUsage now ty s).snd = (usageSnapshot now (resetIfNeeded now s)).snd := by
        simp [trackUsage, h1, h2]
      rw [this]
      exact hr2
    · cases ty with
      | image =>
        have himg : ¬ (resetIfNeeded now s).imagesThisMinute ≥ imagesPerMinute :=
          fun hx => h2 ⟨rfl, hx⟩
        have : (trackUsage now .image s).snd =
            { resetIfNeeded now s with
              imagesThisMinute := (resetIfNeeded now s).imagesThisMinute + 1,
              requestsToday := (resetIfNeeded now s).requestsToday + 1 } := by
          simp [trackUsage, h1, himg]
        rw [this]
        exact ⟨by simp; omega, by simp; omega⟩
      | text =>
        have : (trackUsage now .text s).snd =
            { resetIfNeeded now s with
              requestsToday := (resetIfNeeded now s).requestsToday + 1 } := by
          simp [trackUsage, h1]
        rw [this]
        exact ⟨by simp; omega, by simpa using hr.2⟩

theorem usageInv_runOps (s : UsageState) (ops : List UsageOp) (h : UsageInv s) :
    UsageInv (runOps s ops) := by
  induction ops generalizing s with
  | nil => exact h
  | cons op rest ih =>
    refine ih (applyOp s op) ?_
    cases op with
    | track now ty => exact usageInv_trackUsage now ty s h
    | observe now => exact usageInv_resetIfNeeded now s h
    | reset now => exact usageInv_resetIfNeeded now s h

/-- C9: starting from the initial state, after any sequence of
`trackUsage`, `resetIfNeeded` and `usageSnapshot` operations (each at an
arbitrary instant) both counters stay within their limits:
`requestsToday ≤ 200` and `imagesThisMinute ≤ 20` (non-negativity is
inherent in the `Nat` counters).  Each counter is compared against its
limit before being incremented, and increments are by exactly 1. -/
theorem c9_counters_bounded (now0 : Nat) (ops : List UsageOp) :
    (runOps (initialUsage now0) ops).requestsToday ≤ 200 ∧
      (runOps (initialUsage now0) ops).imagesThisMinute ≤ 20 := by
  have h := usageInv_runOps (initialUsage now0) ops (by exact ⟨by simp [initialUsage], by simp [initialUsage]⟩)
  exact ⟨h.1, h.2⟩

/-- Advancing one task raises its slot weight only when the gate guard was
granted. -/
theorem taskHolds_advanceTask (c : Bool) (t : List GateAction) :
    (if taskHolds (advanceTask c t) then 1 else 0) ≤
      (if taskHolds t then 1 else 0) + (if c then 1 else 0) := by
  match t with
  | [] => simp [advanceTask]
  | .acquire :: rest =>
    cases c with
    | false => simp [advanceTask]
    | true =>
      simp [advanceTask, taskHolds]
      split_ifs <;> simp_all
  | .beginRemote :: rest =>
    simp only [advanceTask, taskHolds, List.mem_cons]
    split_ifs <;> simp_all
  | .endRemote :: rest =>
    simp only [advanceTask, taskHolds, List.mem_cons]
    split_ifs <;> simp_all
  | .release :: rest =>
    simp only [advanceTask, taskHolds, List.mem_cons]
    split_ifs <;> simp_all

theorem inflightCount_stepAt (c : Bool) (l : List (List GateAction)) (i : Nat) :
    inflightCount (stepAt c l i) ≤ inflightCount l + (if c then 1 else 0) := by
  induction l generalizing i with
  | nil => simp [stepAt, inflightCount]
  | cons t ts ih =>
    cases i with
    | zero =>
      simp only [stepAt, inflightCount, List.countP_cons]
      have := taskHolds_advanceTask c t
      have h2 : (ts.countP taskHolds : Nat) = ts.countP taskHolds := rfl
      omega
    | succ j =>
      simp only [stepAt, inflightCount, List.countP_cons]
      have := ih j
      simp only [inflightCount] at this
      omega

/-- The ceiling is preserved by every scheduler step: `acquire` only fires
below the ceiling, everything else can only lower the in-flight count. -/
theorem inflightCount_gateStep (tasks : List (List GateAction)) (i : Nat)
    (h : inflightCount tasks ≤ MAX_CONCURRENCY) :
    inflightCount (gateStep tasks i) ≤ MAX_CONCURRENCY := by
  unfold gateStep
  have h1 := inflightCount_stepAt (decide (inflightCount tasks < MAX_CONCURRENCY)) tasks i
  by_cases hg : inflightCount tasks < MAX_CONCURRENCY
  · rw [decide_eq_true hg] at h1 ⊢
    simp at h1
    omega
  · rw [decide_eq_false hg] at h1 ⊢
    simp at h1
    omega

/-- Every residue of the wrapped program stays a residue under one step. -/
theorem advanceTask_mem_tails :
    ∀ t ∈ generateImageRemoteProgram.tails, ∀ c : Bool,
      advanceTask c t ∈ generateImageRemoteProgram.tails := by
  decide

theorem stepAt_mem_tails (c : Bool) (l : List (List GateAction)) (i : Nat)
    (h : ∀ t ∈ l, t ∈ generateImageRemoteProgram.tails) :
    ∀ t ∈ stepAt c l i, t ∈ generateImageRemoteProgram.tails := by
  induction l generalizing i with
  | nil => simp [stepAt]
  | cons t ts ih =>
    cases i with
    | zero =>
      intro u hu
      rcases List.mem_cons.mp hu with h1 | h2
      · subst h1
        exact advanceTask_mem_tails t (h t (List.mem_cons_self t ts)) c
      · exact h u (List.mem_cons_of_mem t h2)
    | succ j =>
      intro u hu
      rcases List.mem_cons.mp hu with h1 | h2
      · subst h1
        exact h u (List.mem_cons_self u ts)
      · exact ih j (fun v hv => h v (List.mem_cons_of_mem t hv)) u h2

/-- Among residues of the wrapped program, a task with a remote call in
flight holds a slot. -/
theorem taskInRemote_imp_taskHolds :
    ∀ t ∈ generateImageRemoteProgram.tails,
      taskInRemote t = true → taskHolds t = true := by
  decide

/-- Invariant for pools of `limitConcurrency`-wrapped tasks. -/
def GateInv (tasks : List (List GateAction)) : Prop :=
  (∀ t ∈ tasks, t ∈ generateImageRemoteProgram.tails) ∧
    inflightCount tasks ≤ MAX_CONCURRENCY

theorem gateInv_gateStep (tasks : List (List GateAction)) (i : Nat)
    (h : GateInv tasks) : GateInv (gateStep tasks i) := by
  refine ⟨?_, inflightCount_gateStep tasks i h.2⟩
  unfold gateStep
  exact stepAt_mem_tails _ tasks i h.1

theorem gateInv_runSchedule (tasks : List (List GateAction)) (sched : List Nat)
    (h : GateInv tasks) : GateInv (runSchedule tasks sched) := by
  induction sched generalizing tasks with
  | nil => exact h
  | cons i rest ih => exact ih (gateStep tasks i) (gateInv_gateStep tasks i h)

/-- C5, counterexample: remote calls made by generation endpoints are not
all bounded by the two-slot gate.  `/api/editImage` invokes
`ai.models.generateContent` without `limitConcurrency`; three concurrent
`editImage` handlers, each stepped once, put three remote calls in flight
simultaneously. -/
theorem c5_counterexample :
    MAX_CONCURRENCY <
      remoteCount (runSchedule
        (List.replicate 3 editImageRemoteProgram) [0, 1, 2]) := by
  decide

/-- A completed (empty-residue) task is invisible to the gate guard, so a
step of task `i` in the remainder commutes with a leading completed task. -/
theorem gateStep_cons_nil (ts : List (List GateAction)) (i : Nat) :
    gateStep ([] :: ts) (i + 1) = [] :: gateStep ts i := by
  unfold gateStep
  have hinf : inflightCount ([] :: ts) = inflightCount ts := by
    simp [inflightCount, List.countP_cons, taskHolds]
  rw [hinf]
  rfl

theorem runSchedule_cons_nil (ts : List (List GateAction)) (sched : List Nat) :
    runSchedule ([] :: ts) (sched.map Nat.succ) = [] :: runSchedule ts sched := by
  induction sched generalizing ts with
  | nil => rfl
  | cons i rest ih =>
    simp only [runSchedule, List.map_cons, List.foldl_cons, Nat.succ_eq_add_one]
    rw [gateStep_cons_nil ts i]
    exact ih (gateStep ts i)

/-- Liveness of the gate for wrapped pools: the sequential schedule drives
every task to completion (all residues empty) — each `acquire` fires
because at most one task is mid-program at a time, and the other three
actions are never blocked. -/
theorem runSchedule_completionSchedule (n : Nat) :
    runSchedule (List.replicate n generateImageRemoteProgram)
        (completionSchedule n) =
      List.replicate n ([] : List GateAction) := by
  induction n with
  | zero => rfl
  | succ m ih =>
    have hz : inflightCount (List.replicate (m + 1) generateImageRemoteProgram) = 0 := by
      unfold inflightCount
      rw [List.countP_eq_zero]
      intro t ht
      rw [List.eq_of_mem_replicate ht]
      decide
    have h0 : gateStep (List.replicate (m + 1) generateImageRemoteProgram) 0 =
        [GateAction.beginRemote, GateAction.endRemote, GateAction.release] ::
          List.replicate m generateImageRemoteProgram := by
      unfold gateStep
      rw [hz]
      rfl
    have h1 : gateStep ([GateAction.beginRemote, GateAction.endRemote,
          GateAction.release] :: List.replicate m generateImageRemoteProgram) 0 =
        [GateAction.endRemote, GateAction.release] ::
          List.replicate m generateImageRemoteProgram := rfl
    have h2 : gateStep ([GateAction.endRemote, GateAction.release] ::
          List.replicate m generateImageRemoteProgram) 0 =
        [GateAction.release] :: List.replicate m generateImageRemoteProgram := rfl
    have h3 : gateStep ([GateAction.release] ::
          List.replicate m generateImageRemoteProgram) 0 =
        [] :: List.replicate m generateImageRemoteProgram := rfl
    have h4 := runSchedule_cons_nil (List.replicate m generateImageRemoteProgram)
      (completionSchedule m)
    rw [ih] at h4
    simp only [completionSchedule, runSchedule, List.foldl_cons]
    rw [h0, h1, h2, h3]
    exact h4

/-- C5, amended: only `/api/generateImage` routes its remote call through
`limitConcurrency`; `/api/editImage` (and the text/portrait/profile
endpoints) call the remote API directly, so the two-slot ceiling does not
bound them (see the counterexample).  For any pool of
`limitConcurrency`-wrapped tasks: under every schedule at most 2 slots are
held and at most 2 remote calls are in flight at any time; the wrapped
program structurally acquires and releases its slot exactly once, the
release after the call; and all callers eventually complete — the
sequential schedule drives all `n` tasks to empty residues. -/
theorem c5_gate_ceiling_for_wrapped_tasks (n : Nat) (sched : List Nat) :
    inflightCount (runSchedule (List.replicate n generateImageRemoteProgram) sched) ≤
        MAX_CONCURRENCY ∧
      remoteCount (runSchedule (List.replicate n generateImageRemoteProgram) sched) ≤
        MAX_CONCURRENCY ∧
      generateImageRemoteProgram.count .acquire = 1 ∧
      generateImageRemoteProgram.count .release = 1 ∧
      runSchedule (List.replicate n generateImageRemoteProgram)
          (completionSchedule n) =
        List.replicate n ([] : List GateAction) := by
  have hinv : GateInv (List.replicate n generateImageRemoteProgram) := by
    constructor
    · intro t ht
      rw [List.eq_of_mem_replicate ht]
      decide
    · simp only [inflightCount]
      have : (List.replicate n generateImageRemoteProgram).countP taskHolds = 0 := by
        rw [List.countP_eq_zero]
        intro t ht
        rw [List.eq_of_mem_replicate ht]
        decide
      omega
  have hfin := gateInv_runSchedule _ sched hinv
  refine ⟨hfin.2, ?_, by decide, by decide, runSchedule_completionSchedule n⟩
  calc remoteCount (runSchedule (List.replicate n generateImageRemoteProgram) sched)
      ≤ inflightCount (runSchedule (List.replicate n generateImageRemoteProgram) sched) :=
        List.countP_mono_left (fun t ht => taskInRemote_imp_taskHolds t (hfin.1 t ht))
    _ ≤ MAX_CONCURRENCY := hfin.2

/-- If the next `m` attempts fail retryably and attempt `attempt + m`
succeeds, the executor returns success after waiting exactly the backoff
delay of each failed attempt. -/
theorem executeGo_succeeds_after (fn : Nat → AttemptResult) (jit : Nat → Nat)
    (base : Nat) :
    ∀ m attempt fuel, m < fuel →
      (∀ j, j < m → ∃ cl, fn (attempt + j) = .retryableFailure cl) →
      fn (attempt + m) = .success →
      executeGo fn jit base attempt fuel =
        (.success, Finset.sum (Finset.range m)
          (fun j => backoffDelay base (attempt + j) (jit (attempt + j)))) := by
  intro m
  induction m with
  | zero =>
    intro attempt fuel hm _ hsucc
    obtain ⟨f, rfl⟩ : ∃ f, fuel = f + 1 := ⟨fuel - 1, by omega⟩
    simp only [Nat.add_zero] at hsucc
    simp [executeGo, hsucc]
  | succ m ih =>
    intro attempt fuel hm hfail hsucc
    obtain ⟨f, rfl⟩ : ∃ f, fuel = f + 1 := ⟨fuel - 1, by omega⟩
    obtain ⟨cl, hcl⟩ := hfail 0 (Nat.succ_pos m)
    simp only [Nat.add_zero] at hcl
    obtain ⟨f2, rfl⟩ : ∃ f2, f = f2 + 1 := ⟨f - 1, by omega⟩
    have ihx := ih (attempt + 1) (f2 + 1) (by omega)
      (fun j hj => by
        obtain ⟨cl2, hcl2⟩ := hfail (j + 1) (by omega)
        exact ⟨cl2, by rw [show attempt + 1 + j = attempt + (j + 1) by omega]; exact hcl2⟩)
      (by rw [show attempt + 1 + m = attempt + (m + 1) by omega]; exact hsucc)
    simp only [executeGo, hcl, ihx]
    refine Prod.ext rfl ?_
    simp only
    rw [Finset.sum_range_succ']
    have hcongr : (Finset.range m).sum
          (fun j => backoffDelay base (attempt + 1 + j) (jit (attempt + 1 + j))) =
        (Finset.range m).sum
          (fun j => backoffDelay base (attempt + (j + 1)) (jit (attempt + (j + 1)))) := by
      refine Finset.sum_congr rfl (fun j _ => ?_)
      rw [show attempt + 1 + j = attempt + (j + 1) by omega]
    rw [hcongr]
    simp only [Nat.add_zero]
    omega

/-- If every allowed attempt fails retryably, the executor surfaces the
classification of the last attempt, after waiting the backoff delay of each
attempt except the last. -/
theorem executeGo_exhausts (fn : Nat → AttemptResult) (jit : Nat → Nat)
    (cl : Nat → String) (base : Nat) :
    ∀ fuel attempt, 1 ≤ fuel →
      (∀ j, j < fuel → fn (attempt + j) = .retryableFailure (cl (attempt + j))) →
      executeGo fn jit base attempt fuel =
        (.terminalRetryable (cl (attempt + fuel - 1)),
          Finset.sum (Finset.range (fuel - 1))
            (fun j => backoffDelay base (attempt + j) (jit (attempt + j)))) := by
  intro fuel
  induction fuel with
  | zero => omega
  | succ f ih =>
    intro attempt _ hfail
    have h0 := hfail 0 (Nat.succ_pos f)
    simp only [Nat.add_zero] at h0
    match f with
    | 0 => simp [executeGo, h0]
    | f' + 1 =>
      have ihx := ih (attempt + 1) (by omega)
        (fun j hj => by
          rw [show attempt + 1 + j = attempt + (j + 1) by omega]
          exact hfail (j + 1) (by omega))
      simp only [executeGo, h0, ihx]
      refine Prod.ext ?_ ?_
      · simp only
        rw [show attempt + 1 + (f' + 1) - 1 = attempt + (f' + 1 + 1) - 1 by omega]
      · simp only [Nat.add_sub_cancel]
        rw [Finset.sum_range_succ']
        have hcongr : (Finset.range f').sum
              (fun j => backoffDelay base (attempt + 1 + j) (jit (attempt + 1 + j))) =
            (Finset.range f').sum
              (fun j => backoffDelay base (attempt + (j + 1)) (jit (attempt + (j + 1)))) := by
          refine Finset.sum_congr rfl (fun j _ => ?_)
          rw [show attempt + 1 + j = attempt + (j + 1) by omega]
        rw [hcongr]
        simp only [Nat.add_zero]
        omega

/-- C2 (the ResilientExecutor is modelled from the spec, §4.4, since the
repository contains none): for a call that fails retryably on exactly the
first `k` attempts and then succeeds, with `k < maxRetries` the executor
returns success, the total wait is exactly the sum of the per-attempt
backoff delays `min(10000, baseDelayMs * 2^i) + jitter_i`, and — whenever
the 10s cap does not truncate any of the first `k` delays, as with the
default `baseDelayMs = 750` and `maxRetries = 3` — the total wait is at
least `sum over i < k of baseDelayMs * 2^i` (ignoring jitter).  If instead
`maxRetries ≤ k`, the attempts are exhausted and the classification of the
last (`maxRetries - 1`-th) retryable failure surfaces as the terminal
error. -/
theorem c2_executor_backoff_and_retries (base maxR k : Nat) (cl : Nat → String)
    (jit : Nat → Nat) (fn : Nat → AttemptResult)
    (hfn : ∀ i, fn i = if i < k then .retryableFailure (cl i) else .success) :
    (k < maxR →
      (execute fn jit base maxR).fst = .success ∧
        (execute fn jit base maxR).snd =
          Finset.sum (Finset.range k) (fun i => backoffDelay base i (jit i)) ∧
        ((∀ i, i < k → base * 2 ^ i ≤ 10000) →
          Finset.sum (Finset.range k) (fun i => base * 2 ^ i) ≤
            (execute fn jit base maxR).snd)) ∧
    (maxR ≤ k → 1 ≤ maxR →
      (execute fn jit base maxR).fst = .terminalRetryable (cl (maxR - 1)) ∧
        (execute fn jit base maxR).snd =
          Finset.sum (Finset.range (maxR - 1))
            (fun i => backoffDelay base i (jit i))) := by
  constructor
  · intro hk
    have hrun := executeGo_succeeds_after fn jit base k 0 maxR hk
      (fun j hj => ⟨cl j, by rw [Nat.zero_add, hfn j, if_pos hj]⟩)
      (by rw [Nat.zero_add, hfn k, if_neg (lt_irrefl k)])
    have hsimpl : (Finset.range k).sum
          (fun j => backoffDelay base (0 + j) (jit (0 + j))) =
        (Finset.range k).sum (fun i => backoffDelay base i (jit i)) := by
      refine Finset.sum_congr rfl (fun j _ => by rw [Nat.zero_add])
    unfold execute
    rw [hrun, hsimpl]
    refine ⟨rfl, rfl, fun hcap => ?_⟩
    refine Finset.sum_le_sum (fun i hi => ?_)
    have := hcap i (Finset.mem_range.mp hi)
    unfold backoffDelay
    omega
  · intro hk h1
    have hrun := executeGo_exhausts fn jit cl base maxR 0 h1
      (fun j hj => by rw [Nat.zero_add, hfn j, if_pos (by omega)])
    have hsimpl : (Finset.range (maxR - 1)).sum
          (fun j => backoffDelay base (0 + j) (jit (0 + j))) =
        (Finset.range (maxR - 1)).sum (fun i => backoffDelay base i (jit i)) := by
      refine Finset.sum_congr rfl (fun j _ => by rw [Nat.zero_add])
    unfold execute
    rw [hrun, hsimpl]
    exact ⟨by rw [Nat.zero_add], rfl⟩

/-- Witness for C2: with the defaults `baseDelayMs = 750`, `maxRetries = 3`
and a constant jitter of 100ms, two 503 failures followed by success give
success with a total wait of (750+100) + (1500+100) = 2450ms, at least the
jitter-free sum 750 + 1500 = 2250ms. -/
theorem c2_executor_backoff_and_retries_witness :
    (execute attemptsFailTwice (fun _ => 100) 750 3).fst = .success ∧
      (execute attemptsFailTwice (fun _ => 100) 750 3).snd = 2450 ∧
      2250 ≤ (execute attemptsFailTwice (fun _ => 100) 750 3).snd := by
  have h := (c2_executor_backoff_and_retries 750 3 2 (fun _ => "http 503")
    (fun _ => 100) attemptsFailTwice (fun _ => rfl)).1 (by omega)
  refine ⟨h.1, ?_, ?_⟩
  · rw [h.2.1]
    decide
  · refine le_trans ?_ (h.2.2 ?_)
    · decide
    · intro i hi
      interval_cases i <;> decide

/-- If an image request is admitted, `trackUsage` returns exactly the rolled
state with both counters incremented. -/
theorem trackUsage_image_admitted (now : Nat) (s : UsageState)
    (h : (trackUsage now .image s).fst = none) :
    trackUsage now .image s =
      (none, { resetIfNeeded now s with
        imagesThisMinute := (resetIfNeeded now s).imagesThisMinute + 1,
        requestsToday := (resetIfNeeded now s).requestsToday + 1 }) := by
  by_cases h1 : (resetIfNeeded now s).requestsToday ≥ requestsPerDay
  · simp [trackUsage, h1] at h
  · by_cases h2 : (resetIfNeeded now s).imagesThisMinute ≥ imagesPerMinute
    · simp [trackUsage, h1, h2] at h
    · simp [trackUsage, h1, h2]

/-- C1, counterexample: a cache hit does not leave the `UsageSnapshot`
unchanged.  `trackUsage('image')` runs before the cache probe in
`/api/generateImage`, so the hit on the knight request is returned from the
cache with no remote call and no slot, yet `requestsToday` and
`imagesThisMinute` both rose from 0 to 1. -/
theorem c1_counterexample :
    (generateImageHandler 0 reqKnight [] (initialUsage 0) cacheWithKnight).result =
        .ok ⟨"CACHEDPNG", "image/png",
          "/generated/cache/" ++ genImageCacheKey reqKnight ++ ".png"⟩ true ∧
      (generateImageHandler 0 reqKnight [] (initialUsage 0) cacheWithKnight).effects = [] ∧
      (usageSnapshot 0
          (generateImageHandler 0 reqKnight [] (initialUsage 0) cacheWithKnight).usage).fst ≠
        (usageSnapshot 0 (initialUsage 0)).fst := by
  have htrack : trackUsage 0 .image (initialUsage 0) = (none, ⟨0, 1, 0, 1⟩) := by decide
  have hout : generateImageHandler 0 reqKnight [] (initialUsage 0) cacheWithKnight =
      ⟨.ok ⟨"CACHEDPNG", "image/png",
          "/generated/cache/" ++ genImageCacheKey reqKnight ++ ".png"⟩ true,
        ⟨0, 1, 0, 1⟩, cacheWithKnight, []⟩ := by
    unfold generateImageHandler
    rw [htrack]
    simp [tryReadCache, cacheWithKnight, cacheLookup]
  rw [hout]
  refine ⟨rfl, rfl, ?_⟩
  decide

/-- C1, amended: on a cache hit the gateway does return the cached artifact
immediately with no remote call, no concurrency slot and no cache write —
but quota IS consumed, because `trackUsage` runs before the cache probe: an
admitted hit leaves `requestsToday` and `imagesThisMinute` each one above
the rolled state (a hit under an exhausted quota is rejected before the
cache is even probed). -/
theorem c1_cache_hit_no_remote_but_quota_counted (now : Nat)
    (req : GenImageRequest) (remote : List RemotePart) (s : UsageState)
    (cache : List (String × String)) (b64 : String)
    (hadm : (trackUsage now .image s).fst = none)
    (hhit : cacheLookup cache (genImageCacheKey req) = some b64) :
    (generateImageHandler now req remote s cache).result =
        .ok ⟨b64, "image/png",
          "/generated/cache/" ++ genImageCacheKey req ++ ".png"⟩ true ∧
      (generateImageHandler now req remote s cache).effects = [] ∧
      (generateImageHandler now req remote s cache).cache = cache ∧
      (generateImageHandler now req remote s cache).usage.requestsToday =
        (resetIfNeeded now s).requestsToday + 1 ∧
      (generateImageHandler now req remote s cache).usage.imagesThisMinute =
        (resetIfNeeded now s).imagesThisMinute + 1 := by
  have htrack := trackUsage_image_admitted now s hadm
  have hout : generateImageHandler now req remote s cache =
      ⟨.ok ⟨b64, "image/png",
          "/generated/cache/" ++ genImageCacheKey req ++ ".png"⟩ true,
        { resetIfNeeded now s with
          imagesThisMinute := (resetIfNeeded now s).imagesThisMinute + 1,
          requestsToday := (resetIfNeeded now s).requestsToday + 1 },
        cache, []⟩ := by
    unfold generateImageHandler
    rw [htrack]
    simp [tryReadCache, hhit]
  rw [hout]
  exact ⟨rfl, rfl, rfl, rfl, rfl⟩

/-- Witness for C1 amended: the knight request at `now = 0` from the
initial state with its artifact cached. -/
theorem c1_cache_hit_no_remote_but_quota_counted_witness :
    (generateImageHandler 0 reqKnight [] (initialUsage 0) cacheWithKnight).effects = [] ∧
      (generateImageHandler 0 reqKnight [] (initialUsage 0) cacheWithKnight).usage.requestsToday =
        (resetIfNeeded 0 (initialUsage 0)).requestsToday + 1 := by
  have h := c1_cache_hit_no_remote_but_quota_counted 0 reqKnight [] (initialUsage 0)
    cacheWithKnight "CACHEDPNG" (by decide)
    (by simp [cacheWithKnight, cacheLookup])
  exact ⟨h.2.1, h.2.2.2.1⟩

set_option maxRecDepth 100000 in
/-- C6, counterexample: the cache key is not invariant under the ordering
of object keys in the input structures.  `JSON.stringify` preserves field
order and `stableHash` digests the resulting text, so the two semantically
identical one-character requests — `name` before `profile` versus `profile`
before `name` — produce different SHA-1 keys. -/
theorem c6_counterexample :
    genImageCacheKey reqCharNP ≠ genImageCacheKey reqCharPN := by
  decide

/-- C6, amended: the cache key is a deterministic digest of the serialized
request, so two requests whose input structures serialize identically — in
particular structurally identical requests, with the same field order —
receive identical keys; reordering object fields changes the serialization
and (as the counterexample shows) the key.  No canonicalisation is
performed. -/
theorem c6_key_deterministic_in_serialization (r1 r2 : GenImageRequest)
    (h : jsonStringify (genImageCacheInput r1) = jsonStringify (genImageCacheInput r2)) :
    genImageCacheKey r1 = genImageCacheKey r2 := by
  unfold genImageCacheKey stableHash
  rw [h]

/-- Witness for C6 amended: a request is key-identical to itself. -/
theorem c6_key_deterministic_in_serialization_witness :
    genImageCacheKey reqCharNP = genImageCacheKey reqCharNP :=
  c6_key_deterministic_in_serialization reqCharNP reqCharNP rfl

/-- C10: a cache hit is always returned with mime type `image/png` and
every cache write stores the artifact under a `.png` name, whatever mime
type the remote API reported; hence when the remote artifact's mime type is
not `image/png`, the fresh (first) response and the cached (second)
response for the same request disagree on the mime type. -/
theorem c10_cache_forces_png_mime (now1 now2 : Nat) (req : GenImageRequest)
    (remote remote2 : List RemotePart) (s : UsageState)
    (cache : List (String × String)) (data mt : String)
    (hadm1 : (trackUsage now1 .image s).fst = none)
    (hmiss : cacheLookup cache (genImageCacheKey req) = none)
    (hremote : firstInline remote = some (data, mt))
    (hadm2 : (trackUsage now2 .image
      (generateImageHandler now1 req remote s cache).usage).fst = none)
    (hmt : mt ≠ "image/png") :
    (∀ c h b m u, tryReadCache c h = some (b, m, u) → m = "image/png") ∧
      (generateImageHandler now1 req remote s cache).result =
        .ok ⟨data, mt, "/generated/img-" ++ toString now1 ++ ".png"⟩ false ∧
      Effect.cacheWrite (genImageCacheKey req ++ ".png") ∈
        (generateImageHandler now1 req remote s cache).effects ∧
      (generateImageHandler now2 req remote2
          (generateImageHandler now1 req remote s cache).usage
          (generateImageHandler now1 req remote s cache).cache).result =
        .ok ⟨data, "image/png",
          "/generated/cache/" ++ genImageCacheKey req ++ ".png"⟩ true ∧
      "image/png" ≠ mt := by
  have htrack1 := trackUsage_image_admitted now1 s hadm1
  have hout1 : generateImageHandler now1 req remote s cache =
      ⟨.ok ⟨data, mt, "/generated/img-" ++ toString now1 ++ ".png"⟩ false,
        { resetIfNeeded now1 s with
          imagesThisMinute := (resetIfNeeded now1 s).imagesThisMinute + 1,
          requestsToday := (resetIfNeeded now1 s).requestsToday + 1 },
        writeCache cache (genImageCacheKey req) data,
        [.acquireSlot, .remoteCall, .releaseSlot,
         .diskWrite ("img-" ++ toString now1 ++ ".png"),
         .cacheWrite (genImageCacheKey req ++ ".png")]⟩ := by
    unfold generateImageHandler
    rw [htrack1]
    simp [tryReadCache, hmiss, hremote]
  have hu : (generateImageHandler now1 req remote s cache).usage =
      { resetIfNeeded now1 s with
        imagesThisMinute := (resetIfNeeded now1 s).imagesThisMinute + 1,
        requestsToday := (resetIfNeeded now1 s).requestsToday + 1 } := by
    rw [hout1]
  have hc : (generateImageHandler now1 req remote s cache).cache =
      writeCache cache (genImageCacheKey req) data := by
    rw [hout1]
  rw [hu] at hadm2
  have htrack2 := trackUsage_image_admitted now2 _ hadm2
  have hout2 : generateImageHandler now2 req remote2
      ({ resetIfNeeded now1 s with
        imagesThisMinute := (resetIfNeeded now1 s).imagesThisMinute + 1,
        requestsToday := (resetIfNeeded now1 s).requestsToday + 1 })
      (writeCache cache (genImageCacheKey req) data) =
      ⟨.ok ⟨data, "image/png",
          "/generated/cache/" ++ genImageCacheKey req ++ ".png"⟩ true,
        (trackUsage now2 .image
          { resetIfNeeded now1 s with
            imagesThisMinute := (resetIfNeeded now1 s).imagesThisMinute + 1,
            requestsToday := (resetIfNeeded now1 s).requestsToday + 1 }).snd,
        writeCache cache (genImageCacheKey req) data, []⟩ := by
    unfold generateImageHandler
    rw [htrack2]
    simp [tryReadCache, writeCache, cacheLookup]
  refine ⟨?_, ?_, ?_, ?_, fun h => hmt h.symm⟩
  · intro c h b m u hr
    unfold tryReadCache at hr
    match hl : cacheLookup c h with
    | some v => rw [hl] at hr; cases hr; rfl
    | none => rw [hl] at hr; cases hr
  · rw [hout1]
  · rw [hout1]
    simp
  · rw [hu, hc, hout2]

/-- Witness for C10: at `now = 0` from the initial state with an empty
cache, the remote returns a `image/jpeg` artifact; the first response
reports `image/jpeg`, the repeat at `now = 1` is served from the cache as
`image/png`. -/
theorem c10_cache_forces_png_mime_witness :
    (generateImageHandler 0 reqKnight [.inline "DATA" "image/jpeg"]
        (initialUsage 0) []).result =
      .ok ⟨"DATA", "image/jpeg", "/generated/img-0.png"⟩ false ∧
      (generateImageHandler 1 reqKnight []
          (generateImageHandler 0 reqKnight [.inline "DATA" "image/jpeg"]
            (initialUsage 0) []).usage
          (generateImageHandler 0 reqKnight [.inline "DATA" "image/jpeg"]
            (initialUsage 0) []).cache).result =
        .ok ⟨"DATA", "image/png",
          "/generated/cache/" ++ genImageCacheKey reqKnight ++ ".png"⟩ true := by
  have h := c10_cache_forces_png_mime 0 1 reqKnight
    [.inline "DATA" "image/jpeg"] [] (initialUsage 0) [] "DATA" "image/jpeg"
    (by decide) rfl rfl
    (by
      have htrack : trackUsage 0 .image (initialUsage 0) = (none, ⟨0, 1, 0, 1⟩) := by decide
      have hout : (generateImageHandler 0 reqKnight [.inline "DATA" "image/jpeg"]
          (initialUsage 0) []).usage = ⟨0, 1, 0, 1⟩ := by
        unfold generateImageHandler
        rw [htrack]
        simp [tryReadCache, cacheLookup, firstInline]
      rw [hout]
      decide)
    (by decide)
  exact ⟨h.2.1, h.2.2.2.1⟩

end SparkFrame
